import Mathlib

/-!
Shallow embedding of the FormTrack content script (content.js) capture
engine: ignore policy, generic form extraction, provider classification,
Google-Forms retry capture, submit-button watcher registry, and the
fetch/XHR network interceptors.  JavaScript objects used as string-keyed
maps are modelled as insertion-ordered association lists; DOM state and
parse results of raw request bodies are passed in explicitly.
-/

namespace FormTrack

/-- Character-list prefix test: startsList pat s is true iff pat is an
initial segment of s (mirrors the leading part of JS String.includes). -/
def startsList : List Char → List Char → Bool
  | [], _ => true
  | _ :: _, [] => false
  | p :: ps, c :: cs => p == c && startsList ps cs

/-- Substring containment on character lists: hasSub pat s is true iff
pat occurs contiguously in s. -/
def hasSub (pat : List Char) : List Char → Bool
  | [] => startsList pat []
  | c :: cs => startsList pat (c :: cs) || hasSub pat cs

/-- JS String.includes: strContains s pat is true iff pat occurs in s. -/
def strContains (s pat : String) : Bool := hasSub pat.data s.data

/-- JS String.startsWith. -/
def strStarts (s pat : String) : Bool := startsList pat.data s.data

/-- Drop the first n characters of a string (used for the
entry-key regex replacements, which remove a fixed-length head). -/
def strDropN (s : String) (n : Nat) : String := ⟨s.data.drop n⟩

/-- JS String.toLowerCase (ASCII-level model). -/
def strLower (s : String) : String := ⟨s.data.map Char.toLower⟩

/-- JS String.toUpperCase (ASCII-level model). -/
def strUpper (s : String) : String := ⟨s.data.map Char.toUpper⟩

/-- Whitespace test for the JS String.trim model. -/
def isWsChar (c : Char) : Bool := c == ' ' || c == '\t' || c == '\n' || c == '\r'

/-- JS String.trim. -/
def jsTrim (s : String) : String :=
  ⟨((s.data.dropWhile isWsChar).reverse.dropWhile isWsChar).reverse⟩

/-- Field values: a plain string or an accumulated sequence of strings
(checkbox/radio groups share one name). -/
inductive FieldValue where
  | str : String → FieldValue
  | seq : List String → FieldValue
deriving Repr, BEq, DecidableEq

/-- A JS object used as a string-keyed mapping, in insertion order. -/
abbrev FieldMap := List (String × FieldValue)

/-- Lookup of a key in a field map (JS property read). -/
def lookupFV : FieldMap → String → Option FieldValue
  | [], _ => none
  | (k, v) :: rest, key => if k == key then some v else lookupFV rest key

/-- Accumulating insertion used by extractFormData: a fresh key is
appended; a second value under the same key turns the entry into a
sequence; later values are pushed onto the sequence. -/
def addField : FieldMap → String → String → FieldMap
  | [], k, v => [(k, FieldValue.str v)]
  | (k0, v0) :: rest, k, v =>
    if k0 == k then
      match v0 with
      | FieldValue.str s => (k0, FieldValue.seq [s, v]) :: rest
      | FieldValue.seq l => (k0, FieldValue.seq (l ++ [v])) :: rest
    else (k0, v0) :: addField rest k v

/-- Plain JS assignment obj[k] = v: overwrite in place if the key
exists, otherwise append (used by the network-interceptor parsers). -/
def setField : FieldMap → String → String → FieldMap
  | [], k, v => [(k, FieldValue.str v)]
  | (k0, v0) :: rest, k, v =>
    if k0 == k then (k0, FieldValue.str v) :: rest
    else (k0, v0) :: setField rest k v

/-- Fixed ignore patterns of content.js (each tested case-insensitively,
modelled as substring tests on the lowercased URLs). -/
def DEFAULT_IGNORE_PATTERNS : List String :=
  ["login", "signin", "password", "auth", "bank", "credit", "payment"]

/-- shouldIgnore from content.js: true iff some ignore pattern occurs in
the lowercased page URL or the lowercased action URL. -/
def shouldIgnore (url action : String) : Bool :=
  let urlStr := strLower url
  let actionStr := strLower action
  DEFAULT_IGNORE_PATTERNS.any fun p => strContains urlStr p || strContains actionStr p

/-- A native form control as read by extractFormData: its name attribute
(empty string when absent), type, tag name, disabled/checked state,
current value, and number of selected files. -/
structure FormElement where
  name : String
  type : String
  tagName : String
  disabled : Bool
  checked : Bool
  value : String
  filesCount : Nat
deriving Repr, DecidableEq

/-- Value resolution of one control inside extractFormData; none means
the control is skipped. -/
def elementValue (e : FormElement) : Option String :=
  if e.type = "checkbox" ∨ e.type = "radio" then
    if e.checked then some (if e.value = "" then "checked" else e.value) else none
  else if e.type = "file" then
    if e.filesCount > 0 then some (toString e.filesCount ++ " file(s) selected") else none
  else some e.value

/-- One iteration of the extractFormData loop. -/
def extractStep (acc : FieldMap) (e : FormElement) : FieldMap :=
  if e.name = "" then acc
  else if e.type = "password" then acc
  else if e.disabled then acc
  else
    match elementValue e with
    | none => acc
    | some v => if v = "" then acc else addField acc e.name v

/-- extractFormData from content.js: fold the per-element step over the
controls of the form. -/
def extractFormData (elements : List FormElement) : FieldMap :=
  elements.foldl extractStep []

/-- The canonical record built by every capture path.  The timestamp is
the ISO string taken at capture time and is passed in as an input; the
native path builds no source property, modelled as none. -/
structure Submission where
  url : String
  action : String
  timestamp : String
  fields : FieldMap
  title : String
  source : Option String
deriving Repr, DecidableEq

/-- captureFormSubmission from content.js, as a function of the page
URL, the action attribute of the form (empty when absent), the document
title, the capture timestamp and the form controls; none when the
ignore policy vetoes the pair or no data was captured. -/
def captureFormSubmission (pageUrl formAction title now : String)
    (elements : List FormElement) : Option Submission :=
  let actionUrl := if formAction = "" then pageUrl else formAction
  if shouldIgnore pageUrl actionUrl then none
  else
    let formData := extractFormData elements
    if formData.isEmpty then none
    else some {
      url := pageUrl
      action := if actionUrl = "" then pageUrl else actionUrl
      timestamp := now
      fields := formData
      title := if title = "" then "Untitled Page" else title
      source := none }

/-- isGoogleForm from content.js: substring tests on the raw hostname
and pathname. -/
def isGoogleForm (hostname pathname : String) : Bool :=
  strContains hostname "docs.google.com" && strContains pathname "/forms/"

/-- isMicrosoftForm from content.js: substring tests on the lowercased
hostname (the function also lowercases the pathname but never uses it). -/
def isMicrosoftForm (hostname : String) : Bool :=
  let h := strLower hostname
  strContains h "forms.office.com" || strContains h "forms.microsoft.com" ||
    strContains h "forms.office365.com"

/-- isClickUpForm from content.js: substring test on the lowercased
hostname. -/
def isClickUpForm (hostname : String) : Bool :=
  strContains (strLower hostname) "forms.clickup.com"

/-- Retry ceiling of the provider capture loops (maxAttempts). -/
def maxAttempts : Nat := 3

/-- One element visited by the last-resort salvage query, with its
best-available resolved name and its value (value or textContent). -/
structure SalvageInput where
  name : String
  value : String
deriving Repr, DecidableEq

/-- The last-resort pass of the capture loops: every input whose value
is truthy with a truthy trim is written into the map by plain
assignment. -/
def salvageFields (start : FieldMap) (inputs : List SalvageInput) : FieldMap :=
  inputs.foldl
    (fun acc i => if i.value ≠ "" ∧ jsTrim i.value ≠ "" then setField acc i.name i.value else acc)
    start

/-- The attemptCapture loop shared by the Google and ClickUp capture
routines: the extraction result of each scheduled attempt is supplied by
the extracts function (the DOM can change between the timer-delayed
attempts); on the attempt that stops the loop an empty result falls
through to the salvage pass, and an empty final map yields none. -/
def attemptCapture (extracts : Nat → FieldMap) (salvage : List SalvageInput)
    (attempt : Nat) : Option FieldMap :=
  let formData := extracts attempt
  if h : formData.isEmpty ∧ attempt < maxAttempts then
    attemptCapture extracts salvage (attempt + 1)
  else
    let fd := if formData.isEmpty then salvageFields formData salvage else formData
    if fd.isEmpty then none else some fd
termination_by maxAttempts - attempt
decreasing_by simp_wf; omega

/-- captureGoogleFormSubmission from content.js: gated on isGoogleForm,
runs the retry loop from attempt 1 and builds the submission from the
data of the attempt that succeeded. -/
def captureGoogleFormSubmission (hostname pathname href title now : String)
    (extracts : Nat → FieldMap) (salvage : List SalvageInput) : Option Submission :=
  if isGoogleForm hostname pathname then
    match attemptCapture extracts salvage 1 with
    | none => none
    | some fd => some {
        url := href, action := href, timestamp := now, fields := fd,
        title := if title = "" then "Google Form" else title,
        source := some "google-forms" }
  else none

/-- captureMicrosoftFormSubmission from content.js: a single extraction
pass (no retry loop), gated on isMicrosoftForm. -/
def captureMicrosoftFormSubmission (hostname href title now : String)
    (extractResult : FieldMap) : Option Submission :=
  if isMicrosoftForm hostname then
    if extractResult.isEmpty then none
    else some {
      url := href, action := href, timestamp := now, fields := extractResult,
      title := if title = "" then "Microsoft Form" else title,
      source := some "microsoft-forms" }
  else none

/-- captureClickUpFormSubmission from content.js: same retry loop as
the Google routine, gated on isClickUpForm. -/
def captureClickUpFormSubmission (hostname href title now : String)
    (extracts : Nat → FieldMap) (salvage : List SalvageInput) : Option Submission :=
  if isClickUpForm hostname then
    match attemptCapture extracts salvage 1 with
    | none => none
    | some fd => some {
        url := href, action := href, timestamp := now, fields := fd,
        title := if title = "" then "ClickUp Form" else title,
        source := some "clickup-forms" }
  else none

/-- URL-fragment classification of an intercepted call as a Google
Forms endpoint (content.js lines 910-912). -/
def isGoogleFormsEndpoint (url : String) : Bool :=
  strContains url "forms/d/e/" || strContains url "forms/u/0/d/e/" ||
    strContains url "/formResponse"

/-- URL-fragment classification as a Microsoft Forms endpoint
(content.js lines 913-918). -/
def isMicrosoftFormsEndpoint (url : String) : Bool :=
  strContains url "forms.office.com" || strContains url "forms.microsoft.com" ||
    strContains url "forms.office365.com" || strContains url "/api/form/" ||
    strContains url "/api/Response" || strContains url "/SubmitForm"

/-- URL-fragment classification as a ClickUp Forms endpoint (content.js
lines 919-922). -/
def isClickUpFormsEndpoint (url : String) : Bool :=
  strContains url "forms.clickup.com" || strContains url "/api/form/" ||
    strContains url "/form/submit" || strContains url "/submit-form"

/-- Raw request body of an intercepted call.  A FormData body carries
its entries directly; a string body is represented by its parse
outcome: jsonObj when JSON.parse succeeds (the own properties of the object
in key order, values modelled as strings), urlencoded when JSON.parse
throws and the string is read through URLSearchParams instead. -/
inductive RequestBody where
  | formData : List (String × String) → RequestBody
  | jsonObj : List (String × String) → RequestBody
  | urlencoded : List (String × String) → RequestBody
deriving Repr, DecidableEq

/-- Key replacement used in the JSON branches: the anchored regex
removes a leading entry together with an optional following dot. -/
def stripEntryOptDot (k : String) : String :=
  if strStarts k "entry." then strDropN k 6
  else if strStarts k "entry" then strDropN k 5
  else k

/-- Key replacement used in the URL-encoded branches: the anchored
regex removes a leading entry-dot only. -/
def stripEntryDot (k : String) : String :=
  if strStarts k "entry." then strDropN k 6 else k

/-- Password filter applied to keys: case-insensitive substring test. -/
def keyHasPassword (k : String) : Bool := strContains (strLower k) "password"

/-- Property read on a parsed string-to-string object. -/
def lookupStr : List (String × String) → String → Option String
  | [], _ => none
  | (k, v) :: rest, key => if k == key then some v else lookupStr rest key

/-- JS truthiness of the property at the given key (a missing property
and the empty string are falsy). -/
def truthyAt (entries : List (String × String)) (key : String) : Bool :=
  match lookupStr entries key with
  | some v => v ≠ ""
  | none => false

/-- Body parsing of the wrapped fetch (content.js lines 959-1013):
FormData entries are copied with password keys skipped; a JSON body
gets entry-key normalization only on a Google Forms endpoint and only
when the object has a truthy entry-dot or entry property, in which case
entry-prefixed keys bypass the password filter; a URL-encoded body
always gets the password filter and entry-dot normalization. -/
def fetchBodyFields (googleEndpoint : Bool) : RequestBody → FieldMap
  | RequestBody.formData entries =>
    entries.foldl (fun acc kv =>
      if keyHasPassword kv.1 then acc else setField acc kv.1 kv.2) []
  | RequestBody.jsonObj entries =>
    if googleEndpoint ∧ (truthyAt entries "entry." ∨ truthyAt entries "entry") then
      entries.foldl (fun acc kv =>
        if strStarts kv.1 "entry." ∨ strStarts kv.1 "entry_" then
          setField acc (stripEntryOptDot kv.1) kv.2
        else if keyHasPassword kv.1 then acc
        else setField acc kv.1 kv.2) []
    else
      entries.foldl (fun acc kv =>
        if keyHasPassword kv.1 then acc else setField acc kv.1 kv.2) []
  | RequestBody.urlencoded entries =>
    entries.foldl (fun acc kv =>
      if keyHasPassword kv.1 then acc
      else if strStarts kv.1 "entry." then setField acc (stripEntryDot kv.1) kv.2
      else setField acc kv.1 kv.2) []

/-- The url and options arguments of one fetch call; method and body
are absent when the options object lacks them. -/
structure FetchRequest where
  url : String
  method : Option String
  body : Option RequestBody
deriving Repr

/-- Method test of the interception guard. -/
def methodIsFormLike (m : String) : Bool :=
  strUpper m == "POST" || strUpper m == "PUT"

/-- Guard of the wrapped-fetch interception branch: options carry a
truthy method equal to POST or PUT (case-insensitively) and a truthy
body. -/
def fetchIntercepts (req : FetchRequest) : Bool :=
  match req.method, req.body with
  | some m, some _ => m ≠ "" && methodIsFormLike m
  | _, _ => false

/-- The submission built directly by the wrapped fetch (content.js
lines 1015-1031): none when the guard fails or the parsed body yields
no fields; otherwise the target URL is used for both url and action and
the source is chosen by endpoint class with google over microsoft over
clickup, falling back to the literal fetch. -/
def interceptFetchSubmission (title now : String) (req : FetchRequest) :
    Option Submission :=
  if fetchIntercepts req then
    match req.body with
    | none => none
    | some body =>
      let urlStr := req.url
      let g := isGoogleFormsEndpoint urlStr
      let m := isMicrosoftFormsEndpoint urlStr
      let c := isClickUpFormsEndpoint urlStr
      let formData := fetchBodyFields g body
      if formData.isEmpty then none
      else some {
        url := urlStr, action := urlStr, timestamp := now, fields := formData,
        title := if title = "" then "Untitled Page" else title,
        source := some (if g then "google-forms"
                        else if m then "microsoft-forms"
                        else if c then "clickup-forms"
                        else "fetch") }
  else none

/-- DOM cross-check captures scheduled by the wrapped fetch before
delegation, one entry per scheduled timer (provider tag, delay in
milliseconds). -/
def fetchScheduledCaptures (req : FetchRequest) : List (String × Nat) :=
  if fetchIntercepts req then
    (if isGoogleFormsEndpoint req.url then
      [("google", 200), ("google", 800), ("google", 1500)] else []) ++
    (if isMicrosoftFormsEndpoint req.url then [("microsoft", 300)] else []) ++
    (if isClickUpFormsEndpoint req.url then
      [("clickup", 200), ("clickup", 800), ("clickup", 1500)] else [])
  else []

/-- Observable effect of one wrapped network call: the scheduled DOM
cross-check captures and the optional directly-built submission
message. -/
structure InterceptEffect where
  scheduled : List (String × Nat)
  message : Option Submission
deriving Repr

/-- The wrapped fetch installed by interceptFetch: it computes its
observation effect and then delegates to the previously installed fetch
with the very argument list it received, returning the result of that call. -/
def wrappedFetch {R : Type} (originalFetch : FetchRequest → R)
    (title now : String) (req : FetchRequest) : InterceptEffect × R :=
  (⟨fetchScheduledCaptures req, interceptFetchSubmission title now req⟩,
   originalFetch req)

/-- Per-request state recorded by the wrapped XHR open (the url and
method stashed on the request object); none when open never ran. -/
structure XhrState where
  url : Option String
  method : Option String
deriving Repr

/-- Guard of the wrapped-XHR send interception branch: a truthy stashed
method equal to POST or PUT and a truthy stashed url. -/
def xhrIntercepts (st : XhrState) : Bool :=
  match st.method, st.url with
  | some m, some u => m ≠ "" && methodIsFormLike m && u ≠ ""
  | _, _ => false

/-- Body parsing of the wrapped XHR send (content.js lines 1076-1108):
unlike the fetch version, the JSON branch always normalizes entry keys,
with no endpoint gate and no entry-marker test. -/
def xhrBodyFields : RequestBody → FieldMap
  | RequestBody.formData entries =>
    entries.foldl (fun acc kv =>
      if keyHasPassword kv.1 then acc else setField acc kv.1 kv.2) []
  | RequestBody.jsonObj entries =>
    entries.foldl (fun acc kv =>
      if strStarts kv.1 "entry." ∨ strStarts kv.1 "entry_" then
        setField acc (stripEntryOptDot kv.1) kv.2
      else if keyHasPassword kv.1 then acc
      else setField acc kv.1 kv.2) []
  | RequestBody.urlencoded entries =>
    entries.foldl (fun acc kv =>
      if keyHasPassword kv.1 then acc
      else if strStarts kv.1 "entry." then setField acc (stripEntryDot kv.1) kv.2
      else setField acc kv.1 kv.2) []

/-- The submission built by the wrapped XHR send (content.js lines
1110-1126): requires some provider endpoint to match and a truthy body;
the page URL is used for url, the target URL for action, and the source
is chosen with microsoft over clickup over google. -/
def interceptXHRSubmission (href title now : String) (st : XhrState)
    (data : Option RequestBody) : Option Submission :=
  if xhrIntercepts st then
    match st.url, data with
    | some urlStr, some body =>
      let g := isGoogleFormsEndpoint urlStr
      let m := isMicrosoftFormsEndpoint urlStr
      let c := isClickUpFormsEndpoint urlStr
      if g ∨ m ∨ c then
        let formData := xhrBodyFields body
        if formData.isEmpty then none
        else some {
          url := href, action := urlStr, timestamp := now, fields := formData,
          title := if title = "" then
              (if m then "Microsoft Form" else if c then "ClickUp Form" else "Google Form")
            else title,
          source := some (if m then "microsoft-forms"
                          else if c then "clickup-forms"
                          else "google-forms") }
      else none
    | _, _ => none
  else none

/-- DOM cross-check captures scheduled by the wrapped XHR send
(content.js lines 1128-1139). -/
def xhrScheduledCaptures (st : XhrState) (data : Option RequestBody) :
    List (String × Nat) :=
  if xhrIntercepts st then
    match st.url, data with
    | some u, some _ =>
      if isGoogleFormsEndpoint u ∨ isMicrosoftFormsEndpoint u ∨ isClickUpFormsEndpoint u then
        (if isMicrosoftFormsEndpoint u then [("microsoft", 300)] else []) ++
        (if isClickUpFormsEndpoint u then [("clickup", 300)] else [])
      else []
    | _, _ => []
  else []

/-- The wrapped XHR send installed by interceptXHR: it computes its
observation effect and then delegates to the original send with the
very body it received, returning the result of that call. -/
def wrappedXhrSend {R : Type} (originalSend : Option RequestBody → R)
    (href title now : String) (st : XhrState) (data : Option RequestBody) :
    InterceptEffect × R :=
  (⟨xhrScheduledCaptures st data, interceptXHRSubmission href title now st data⟩,
   originalSend data)

/-- State of the submit-button watcher: the set of controls (by DOM
node identity) carrying the formtrackWatched dataset mark, and the log
of listener-pair attachments (one entry per attached click/mousedown
pair). -/
structure WatchState where
  watched : List Nat
  attached : List Nat
deriving Repr, DecidableEq

/-- Watcher state at page load: nothing marked, nothing attached. -/
def initWatchState : WatchState := ⟨[], []⟩

/-- Per-button body of attachListeners: a button not yet marked is
marked and receives one listener pair; a marked button is left
untouched. -/
def attachToButton (s : WatchState) (b : Nat) : WatchState :=
  if b ∈ s.watched then s
  else ⟨b :: s.watched, b :: s.attached⟩

/-- One run of attachListeners over the buttons currently matching the
submit-button selectors. -/
def attachListeners (s : WatchState) (buttons : List Nat) : WatchState :=
  buttons.foldl attachToButton s

/-- Any sequence of attachListeners runs (initial scan, mutation
observer callbacks, periodic rescans) from a given state. -/
def runWatcher (s : WatchState) (runs : List (List Nat)) : WatchState :=
  runs.foldl attachListeners s

/-- Predicate on field values: a plain value is a nonempty string, a
sequence holds only nonempty strings. -/
def fieldValueNonEmpty : FieldValue → Bool
  | FieldValue.str s => s != ""
  | FieldValue.seq l => l.all fun x => x != ""

/-- Invariant of the watcher state: every control carries at most one
listener pair, and an unmarked control carries none. -/
def WatchInv (s : WatchState) : Prop :=
  ∀ b : Nat, s.attached.count b ≤ 1 ∧ (b ∉ s.watched → s.attached.count b = 0)

/-!
Helper lemmas about the embedded definitions.
-/

/-- A control of password type contributes nothing to the
extractFormData fold. -/
theorem extractStep_password (acc : FieldMap) (e : FormElement) (h : e.type = "password") :
    extractStep acc e = acc := by
  by_cases hn : e.name = "" <;> simp [extractStep, hn, h]

/-- Pushing a nonempty value through addField keeps every stored value
nonempty. -/
theorem addField_all_nonempty (k v : String) (hv : v ≠ "") :
    ∀ m : FieldMap, (m.all fun kv => fieldValueNonEmpty kv.2) = true →
      ((addField m k v).all fun kv => fieldValueNonEmpty kv.2) = true := by
  intro m
  induction m with
  | nil =>
    intro _
    simp [addField, fieldValueNonEmpty, hv]
  | cons kv0 rest ih =>
    intro hall
    obtain ⟨k0, v0⟩ := kv0
    simp only [List.all_cons, Bool.and_eq_true] at hall
    by_cases hk : (k0 == k) = true
    · cases v0 with
      | str s =>
        simp only [addField, hk, if_true]
        simp only [List.all_cons, Bool.and_eq_true]
        refine ⟨?_, hall.2⟩
        simp only [fieldValueNonEmpty] at hall ⊢
        simp_all [hv]
      | seq l =>
        simp only [addField, hk, if_true]
        simp only [List.all_cons, Bool.and_eq_true]
        refine ⟨?_, hall.2⟩
        simp only [fieldValueNonEmpty] at hall ⊢
        simp_all [hv]
    · simp only [addField, hk, Bool.false_eq_true, if_false, List.all_cons,
        Bool.and_eq_true]
      exact ⟨hall.1, ih hall.2⟩

/-- A pattern occurring in a dropped suffix occurs in the whole list. -/
theorem hasSub_drop (pat : List Char) : ∀ (n : Nat) (l : List Char),
    hasSub pat (l.drop n) = true → hasSub pat l = true := by
  intro n
  induction n with
  | zero => intro l h; simpa using h
  | succ n ih =>
    intro l h
    cases l with
    | nil => simpa using h
    | cons c cs =>
      have := ih cs (by simpa using h)
      simp [hasSub, this]

/-- Dropping a key head cannot introduce the password substring. -/
theorem keyHasPassword_strDropN (k : String) (n : Nat)
    (h : keyHasPassword (strDropN k n) = true) : keyHasPassword k = true := by
  unfold keyHasPassword strContains strLower at h ⊢
  unfold strDropN at h
  dsimp only at h ⊢
  rw [List.map_drop] at h
  exact hasSub_drop _ n _ h

/-- Entry-dot normalization cannot introduce the password substring. -/
theorem keyHasPassword_stripEntryDot (k : String)
    (h : keyHasPassword (stripEntryDot k) = true) : keyHasPassword k = true := by
  unfold stripEntryDot at h
  split_ifs at h with h1
  · exact keyHasPassword_strDropN k 6 h
  · exact h

/-- setField preserves a key predicate that holds of the inserted key. -/
theorem setField_all_key (P : String → Bool) (k v : String) (hk : P k = true) :
    ∀ m : FieldMap, (m.all fun kv => P kv.1) = true →
      ((setField m k v).all fun kv => P kv.1) = true := by
  intro m
  induction m with
  | nil => intro _; simp [setField, hk]
  | cons kv0 rest ih =>
    intro hall
    obtain ⟨k0, v0⟩ := kv0
    simp only [List.all_cons, Bool.and_eq_true] at hall
    by_cases hkk : (k0 == k) = true
    · simp [setField, hkk, hall.1, hall.2]
    · simp [setField, hkk, hall.1, ih hall.2]

/-- The terminal step of the retry loop only ever returns a nonempty
map. -/
theorem attemptCapture_terminal_nonempty (extracts : Nat → FieldMap)
    (salvage : List SalvageInput) (attempt : Nat) (fd : FieldMap)
    (hc : ¬((extracts attempt).isEmpty = true ∧ attempt < maxAttempts))
    (h : attemptCapture extracts salvage attempt = some fd) : fd ≠ [] := by
  rw [attemptCapture, dif_neg hc] at h
  by_cases he : (extracts attempt).isEmpty = true
  · simp only [he, if_true] at h
    by_cases hs : (salvageFields (extracts attempt) salvage).isEmpty = true
    · rw [if_pos hs] at h
      simp at h
    · rw [if_neg hs] at h
      injection h with h2
      rw [← h2]
      exact List.isEmpty_eq_false.mp (by simpa using hs)
  · simp only [Bool.not_eq_true] at he
    simp only [he, Bool.false_eq_true, if_false] at h
    injection h with h2
    rw [← h2]
    exact List.isEmpty_eq_false.mp he

/-- Fuel-indexed version: a successful retry loop yields a nonempty
map. -/
theorem attemptCapture_nonempty_fuel (extracts : Nat → FieldMap)
    (salvage : List SalvageInput) :
    ∀ (k attempt : Nat) (fd : FieldMap), maxAttempts - attempt ≤ k →
      attemptCapture extracts salvage attempt = some fd → fd ≠ [] := by
  intro k
  induction k with
  | zero =>
    intro attempt fd hk h
    exact attemptCapture_terminal_nonempty extracts salvage attempt fd (by omega) h
  | succ k ih =>
    intro attempt fd hk h
    by_cases hc : (extracts attempt).isEmpty = true ∧ attempt < maxAttempts
    · rw [attemptCapture, dif_pos hc] at h
      exact ih (attempt + 1) fd (by omega) h
    · exact attemptCapture_terminal_nonempty extracts salvage attempt fd hc h

/-- A successful retry loop yields a nonempty map. -/
theorem attemptCapture_some_nonempty (extracts : Nat → FieldMap)
    (salvage : List SalvageInput) (attempt : Nat) (fd : FieldMap)
    (h : attemptCapture extracts salvage attempt = some fd) : fd ≠ [] :=
  attemptCapture_nonempty_fuel extracts salvage (maxAttempts - attempt) attempt fd
    (Nat.le_refl _) h

/-- The watcher invariant holds at page load. -/
theorem watchInv_init : WatchInv initWatchState := by
  intro b
  simp [initWatchState]

/-- The per-button attach step preserves the watcher invariant. -/
theorem watchInv_button (s : WatchState) (b0 : Nat) (h : WatchInv s) :
    WatchInv (attachToButton s b0) := by
  intro b
  unfold attachToButton
  by_cases hw : b0 ∈ s.watched
  · simpa [hw] using h b
  · simp only [hw, if_false]
    by_cases hb : b0 = b
    · subst hb
      have h0 : s.attached.count b0 = 0 := (h b0).2 hw
      constructor
      · simp [List.count_cons, h0]
      · intro hcon
        simp at hcon
    · constructor
      · simpa [List.count_cons, hb] using (h b).1
      · intro hcon
        simp only [List.mem_cons, not_or] at hcon
        simp only [List.count_cons]
        simp [hb, (h b).2 hcon.2]

/-- One attachListeners run preserves the watcher invariant. -/
theorem watchInv_attachListeners (s : WatchState) (buttons : List Nat) (h : WatchInv s) :
    WatchInv (attachListeners s buttons) := by
  induction buttons generalizing s with
  | nil => exact h
  | cons b bs ih => exact ih _ (watchInv_button s b h)

/-- Any sequence of attachListeners runs preserves the watcher
invariant. -/
theorem watchInv_runWatcher (s : WatchState) (runs : List (List Nat)) (h : WatchInv s) :
    WatchInv (runWatcher s runs) := by
  induction runs generalizing s with
  | nil => exact h
  | cons r rs ih => exact ih _ (watchInv_attachListeners s r h)

/-- A control already in the registry is never re-instrumented and
never leaves the registry. -/
theorem watched_stable (s : WatchState) (buttons : List Nat) (b : Nat)
    (h : b ∈ s.watched) :
    (attachListeners s buttons).attached.count b = s.attached.count b ∧
      b ∈ (attachListeners s buttons).watched := by
  induction buttons generalizing s with
  | nil => exact ⟨rfl, h⟩
  | cons b0 bs ih =>
    show (attachListeners (attachToButton s b0) bs).attached.count b = _ ∧
      b ∈ (attachListeners (attachToButton s b0) bs).watched
    by_cases hw : b0 ∈ s.watched
    · have heq : attachToButton s b0 = s := by simp [attachToButton, hw]
      rw [heq]
      exact ih s h
    · have hne : b0 ≠ b := fun hc => hw (hc ▸ h)
      have hstep : attachToButton s b0 = ⟨b0 :: s.watched, b0 :: s.attached⟩ := by
        simp [attachToButton, hw]
      rw [hstep]
      obtain ⟨ha, hb2⟩ := ih ⟨b0 :: s.watched, b0 :: s.attached⟩ (List.mem_cons_of_mem _ h)
      refine ⟨?_, hb2⟩
      rw [ha]
      simp [List.count_cons, hne]

/-- The URL-encoded parse branch of the wrapped fetch never emits a key
containing the password substring. -/
theorem fetchBody_urlencoded_no_password (g : Bool) (entries : List (String × String)) :
    ((fetchBodyFields g (RequestBody.urlencoded entries)).all
      fun kv => !keyHasPassword kv.1) = true := by
  unfold fetchBodyFields
  suffices h : ∀ acc : FieldMap, (acc.all fun kv => !keyHasPassword kv.1) = true →
      ((entries.foldl (fun acc kv =>
        if keyHasPassword kv.1 then acc
        else if strStarts kv.1 "entry." then setField acc (stripEntryDot kv.1) kv.2
        else setField acc kv.1 kv.2) acc).all fun kv => !keyHasPassword kv.1) = true from
    h [] rfl
  induction entries with
  | nil => intro acc h; exact h
  | cons kv rest ih =>
    intro acc hacc
    apply ih
    by_cases h1 : keyHasPassword kv.1
    · simp [h1, hacc]
    · simp only [h1, if_false, Bool.false_eq_true]
      by_cases h2 : strStarts kv.1 "entry."
      · simp only [h2, if_true]
        refine setField_all_key (fun x => !keyHasPassword x) (stripEntryDot kv.1) kv.2 ?_ acc hacc
        simp only [Bool.not_eq_true']
        by_contra hcon
        simp only [Bool.not_eq_false] at hcon
        exact h1 (keyHasPassword_stripEntryDot _ hcon)
      · simp only [h2, if_false, Bool.false_eq_true]
        refine setField_all_key (fun x => !keyHasPassword x) kv.1 kv.2 ?_ acc hacc
        simp [h1]

/-!
Theorems for the individual claims.
-/

/-- C1: the field mapping produced by extractFormData contains no entry
originating from a control of password type: every password control
contributes nothing to the fold (removing them does not change the
result), and the Scenario A form with an email and a password control
yields exactly the email field with no password key. -/
theorem C1_extractFormData_excludes_password_controls :
    (∀ es : List FormElement,
      extractFormData es
        = extractFormData (es.filter fun e => !(e.type == "password"))) ∧
    extractFormData
      [⟨"email", "email", "INPUT", false, false, "a@b.com", 0⟩,
       ⟨"password", "password", "INPUT", false, false, "x", 0⟩]
      = [("email", FieldValue.str "a@b.com")] := by
  constructor
  · intro es
    unfold extractFormData
    suffices h : ∀ acc, es.foldl extractStep acc
        = (es.filter fun e => !(e.type == "password")).foldl extractStep acc from h []
    induction es with
    | nil => intro acc; rfl
    | cons e es ih =>
      intro acc
      by_cases hp : e.type = "password"
      · simp only [List.foldl_cons, List.filter_cons, hp]
        simp [extractStep_password acc e hp, ih]
      · simp only [List.foldl_cons, List.filter_cons]
        simp [hp, ih]
  · decide

/-- C2: the ignore policy vetoes the pair of login URLs, yet the
network-interception trigger path, which never consults shouldIgnore,
still builds and dispatches a submission from the intercepted POST. -/
theorem C2_network_interception_bypasses_ignore_policy :
    shouldIgnore "https://example.com/login" "https://example.com/login" = true ∧
    interceptFetchSubmission "T" "ts"
      ⟨"https://example.com/login", some "POST",
        some (RequestBody.urlencoded [("a", "b")])⟩
      = some { url := "https://example.com/login",
               action := "https://example.com/login",
               timestamp := "ts", fields := [("a", FieldValue.str "b")],
               title := "T", source := some "fetch" } := by
  exact ⟨by decide, by decide⟩

/-- C3: the wrapped network primitives are transparent: the wrapped
fetch always returns the result of the original fetch applied to the
unmodified argument list, and the wrapped XHR send always returns the
result of the original send applied to the unmodified body. -/
theorem C3_wrapped_primitives_transparent :
    (∀ (R : Type) (originalFetch : FetchRequest → R) (title now : String)
       (req : FetchRequest),
      (wrappedFetch originalFetch title now req).2 = originalFetch req) ∧
    (∀ (R : Type) (originalSend : Option RequestBody → R) (href title now : String)
       (st : XhrState) (data : Option RequestBody),
      (wrappedXhrSend originalSend href title now st data).2 = originalSend data) :=
  ⟨fun _ _ _ _ _ => rfl, fun _ _ _ _ _ _ _ => rfl⟩

/-- C4 counterexample: a string body that parses as JSON with the
single key entry.111 on a Google Forms endpoint is dispatched with the
key unnormalized, because the JSON branch normalizes entry keys only
when the parsed object has a literal truthy entry-dot or entry
property; the claim that every entry-prefixed key is normalized to the
bare identifier is therefore false at this input. -/
theorem C4_cx_json_entry_key_not_normalized :
    interceptFetchSubmission "T" "ts"
      ⟨"https://docs.google.com/forms/d/e/ABC/formResponse", some "POST",
        some (RequestBody.jsonObj [("entry.111", "Foo")])⟩
      = some { url := "https://docs.google.com/forms/d/e/ABC/formResponse",
               action := "https://docs.google.com/forms/d/e/ABC/formResponse",
               timestamp := "ts", fields := [("entry.111", FieldValue.str "Foo")],
               title := "T", source := some "google-forms" } := by
  decide

/-- C4 amended: Scenario C holds for a URL-encoded body (entry.111=Foo
to a formResponse URL yields the field 111 with source google-forms);
the URL-encoded branch always drops password keys and normalizes the
entry-dot key head; a JSON body on a non-Google endpoint is parsed
exactly like a FormData body (password filter, keys verbatim); and on a
Google endpoint a JSON object with a truthy entry-dot marker does get
entry-key normalization. -/
theorem C4_amended_body_parsing :
    interceptFetchSubmission "T" "ts"
      ⟨"https://docs.google.com/forms/d/e/ABC/formResponse", some "POST",
        some (RequestBody.urlencoded [("entry.111", "Foo")])⟩
      = some { url := "https://docs.google.com/forms/d/e/ABC/formResponse",
               action := "https://docs.google.com/forms/d/e/ABC/formResponse",
               timestamp := "ts", fields := [("111", FieldValue.str "Foo")],
               title := "T", source := some "google-forms" } ∧
    (∀ (g : Bool) (entries : List (String × String)),
      ((fetchBodyFields g (RequestBody.urlencoded entries)).all
        fun kv => !keyHasPassword kv.1) = true) ∧
    (∀ entries : List (String × String),
      fetchBodyFields false (RequestBody.jsonObj entries)
        = fetchBodyFields false (RequestBody.formData entries)) ∧
    fetchBodyFields true (RequestBody.jsonObj [("entry.", "1"), ("entry.111", "Foo")])
      = [("", FieldValue.str "1"), ("111", FieldValue.str "Foo")] :=
  ⟨by decide, fetchBody_urlencoded_no_password, fun _ => rfl, by decide⟩

/-- C5 counterexample: the fetch interception path copies parsed body
values verbatim, so a URL-encoded body with an empty value is
dispatched as a submission whose fields carry the empty string,
refuting the claim for network-built submissions. -/
theorem C5_cx_interception_keeps_empty_value :
    interceptFetchSubmission "T" "ts"
      ⟨"https://api.example.com/data", some "POST",
        some (RequestBody.urlencoded [("a", "")])⟩
      = some { url := "https://api.example.com/data",
               action := "https://api.example.com/data",
               timestamp := "ts", fields := [("a", FieldValue.str "")],
               title := "T", source := some "fetch" } := by
  decide

/-- C5 amended: the generic DOM extractor never stores an empty value
(every plain value is a nonempty string and every accumulated sequence
holds only nonempty strings), while submissions built by the network
interceptors may carry empty-string values. -/
theorem C5_amended_dom_extraction_values_nonempty :
    ∀ es : List FormElement,
      ((extractFormData es).all fun kv => fieldValueNonEmpty kv.2) = true := by
  intro es
  unfold extractFormData
  suffices h : ∀ acc : FieldMap, (acc.all fun kv => fieldValueNonEmpty kv.2) = true →
      ((es.foldl extractStep acc).all fun kv => fieldValueNonEmpty kv.2) = true from
    h [] rfl
  induction es with
  | nil => intro acc h; exact h
  | cons e es ih =>
    intro acc hacc
    apply ih
    unfold extractStep
    by_cases h1 : e.name = ""
    · simp [h1, hacc]
    · simp only [h1, if_false]
      by_cases h2 : e.type = "password"
      · simp [h2, hacc]
      · simp only [h2, if_false]
        by_cases h3 : e.disabled
        · simp [h3, hacc]
        · simp only [h3, if_false, Bool.false_eq_true]
          cases hev : elementValue e with
          | none => simpa using hacc
          | some v =>
            by_cases h4 : v = ""
            · simp [h4, hacc]
            · simp only [h4, if_false]
              exact addField_all_nonempty e.name v h4 acc hacc

/-- C6: when the first two extraction attempts return empty mappings
and the third returns a nonempty one, the retry loop dispatches exactly
the data of the third attempt; when all three attempts and the salvage
pass are empty, no submission is built. -/
theorem C6_retry_dispatches_third_attempt :
    (∀ (hostname pathname href title now : String) (extracts : Nat → FieldMap)
       (salvage : List SalvageInput),
      isGoogleForm hostname pathname = true →
      extracts 1 = [] → extracts 2 = [] → extracts 3 ≠ [] →
      captureGoogleFormSubmission hostname pathname href title now extracts salvage
        = some { url := href, action := href, timestamp := now, fields := extracts 3,
                 title := if title = "" then "Google Form" else title,
                 source := some "google-forms" }) ∧
    (∀ (hostname pathname href title now : String) (extracts : Nat → FieldMap)
       (salvage : List SalvageInput),
      extracts 1 = [] → extracts 2 = [] → extracts 3 = [] →
      salvageFields [] salvage = [] →
      captureGoogleFormSubmission hostname pathname href title now extracts salvage
        = none) := by
  constructor
  · intro hostname pathname href title now extracts salvage hg h1 h2 h3
    have hac : attemptCapture extracts salvage 1 = some (extracts 3) := by
      rw [attemptCapture]
      simp only [h1, maxAttempts]
      norm_num
      rw [attemptCapture]
      simp only [h2, maxAttempts]
      norm_num
      rw [attemptCapture]
      simp only [maxAttempts]
      simp [List.isEmpty_eq_false.mpr h3]
    unfold captureGoogleFormSubmission
    rw [if_pos hg, hac]
  · intro hostname pathname href title now extracts salvage h1 h2 h3 hs
    have hac : attemptCapture extracts salvage 1 = none := by
      rw [attemptCapture]
      simp only [h1, maxAttempts]
      norm_num
      rw [attemptCapture]
      simp only [h2, maxAttempts]
      norm_num
      rw [attemptCapture]
      simp [h3, maxAttempts, hs]
    unfold captureGoogleFormSubmission
    by_cases hg : isGoogleForm hostname pathname = true
    · rw [if_pos hg, hac]
    · rw [if_neg hg]

/-- C6 witness: the retry theorem instantiated at a concrete extraction
chain that is empty on attempts one and two and succeeds on the third. -/
theorem C6_retry_dispatches_third_attempt_witness :
    captureGoogleFormSubmission "docs.google.com" "/forms/d/e/x"
      "https://docs.google.com/forms/d/e/x/viewform" "My Form" "ts"
      (fun n => if n = 3 then [("q", FieldValue.str "a")] else []) []
      = some { url := "https://docs.google.com/forms/d/e/x/viewform",
               action := "https://docs.google.com/forms/d/e/x/viewform",
               timestamp := "ts", fields := [("q", FieldValue.str "a")],
               title := "My Form", source := some "google-forms" } :=
  C6_retry_dispatches_third_attempt.1 "docs.google.com" "/forms/d/e/x"
    "https://docs.google.com/forms/d/e/x/viewform" "My Form" "ts"
    (fun n => if n = 3 then [("q", FieldValue.str "a")] else []) []
    (by decide) rfl rfl (by decide)

/-- C7 counterexample: classification tests substring containment, so a
contrived hostname containing both provider fragments is classified as
both Google Forms and Microsoft Forms at once although it is not equal
to docs.google.com, refuting exactness and mutual exclusivity of the
classification as claimed. -/
theorem C7_cx_classification_not_exclusive :
    isGoogleForm "docs.google.com.forms.office.com" "/forms/x" = true ∧
    isMicrosoftForm "docs.google.com.forms.office.com" = true ∧
    "docs.google.com.forms.office.com" ≠ "docs.google.com" := by
  exact ⟨by decide, by decide, by decide⟩

/-- C7 amended: classification is by substring containment (Google
Forms when the hostname contains docs.google.com and the pathname
contains /forms/, Microsoft Forms when the lowercased hostname contains
one of the three known hostnames, ClickUp Forms when it contains
forms.clickup.com, native otherwise); on the genuine provider hostnames
the three predicates are mutually exclusive, though not for every
input. -/
theorem C7_amended_containment_classification :
    (∀ hostname pathname : String, isGoogleForm hostname pathname
      = (strContains hostname "docs.google.com" && strContains pathname "/forms/")) ∧
    (∀ hostname : String, isMicrosoftForm hostname
      = (strContains (strLower hostname) "forms.office.com"
          || strContains (strLower hostname) "forms.microsoft.com"
          || strContains (strLower hostname) "forms.office365.com")) ∧
    (∀ hostname : String, isClickUpForm hostname
      = strContains (strLower hostname) "forms.clickup.com") ∧
    (isGoogleForm "docs.google.com" "/forms/d/e/x" = true ∧
      isMicrosoftForm "docs.google.com" = false ∧
      isClickUpForm "docs.google.com" = false) ∧
    (isGoogleForm "forms.office.com" "/forms/x" = false ∧
      isMicrosoftForm "forms.office.com" = true ∧
      isClickUpForm "forms.office.com" = false) ∧
    (isGoogleForm "forms.microsoft.com" "/forms/x" = false ∧
      isMicrosoftForm "forms.microsoft.com" = true ∧
      isClickUpForm "forms.microsoft.com" = false) ∧
    (isGoogleForm "forms.office365.com" "/forms/x" = false ∧
      isMicrosoftForm "forms.office365.com" = true ∧
      isClickUpForm "forms.office365.com" = false) ∧
    (isGoogleForm "forms.clickup.com" "/forms/x" = false ∧
      isMicrosoftForm "forms.clickup.com" = false ∧
      isClickUpForm "forms.clickup.com" = true) ∧
    (isGoogleForm "example.com" "/forms/x" = false ∧
      isMicrosoftForm "example.com" = false ∧
      isClickUpForm "example.com" = false) := by
  refine ⟨fun _ _ => rfl, fun _ => rfl, fun _ => rfl, ?_, ?_, ?_, ?_, ?_, ?_⟩ <;>
    exact ⟨by decide, by decide, by decide⟩

/-- C8 counterexample: a generic POST with a parsable body whose target
URL matches no provider endpoint is dispatched with the source literal
fetch, not fetch-generic, refuting the claim as stated. -/
theorem C8_cx_generic_source_is_fetch :
    interceptFetchSubmission "T" "ts"
      ⟨"https://api.example.com/data", some "POST",
        some (RequestBody.urlencoded [("a", "b")])⟩
      = some { url := "https://api.example.com/data",
               action := "https://api.example.com/data",
               timestamp := "ts", fields := [("a", FieldValue.str "b")],
               title := "T", source := some "fetch" } ∧
    (some "fetch" : Option String) ≠ some "fetch-generic" := by
  exact ⟨by decide, by decide⟩

/-- C8 amended: every submission built directly by the wrapped fetch
carries the source chosen by endpoint class with precedence google-forms
over microsoft-forms over clickup-forms, falling back to the literal
fetch when no provider endpoint matched. -/
theorem C8_amended_source_selection :
    ∀ (title now : String) (req : FetchRequest) (s : Submission),
      interceptFetchSubmission title now req = some s →
      s.source = some (if isGoogleFormsEndpoint req.url then "google-forms"
                       else if isMicrosoftFormsEndpoint req.url then "microsoft-forms"
                       else if isClickUpFormsEndpoint req.url then "clickup-forms"
                       else "fetch") := by
  intro title now req s h
  unfold interceptFetchSubmission at h
  by_cases hg : fetchIntercepts req = true
  · rw [if_pos hg] at h
    cases hb : req.body with
    | none => rw [hb] at h; cases h
    | some body =>
      rw [hb] at h
      dsimp only at h
      by_cases he : (fetchBodyFields (isGoogleFormsEndpoint req.url) body).isEmpty = true
      · rw [if_pos he] at h; cases h
      · rw [if_neg he] at h
        injection h with h2
        rw [← h2]
  · rw [if_neg hg] at h; cases h

/-- C8 amended witness: the source-selection theorem instantiated at
the generic POST of the counterexample. -/
theorem C8_amended_source_selection_witness :
    ({ url := "https://api.example.com/data", action := "https://api.example.com/data",
       timestamp := "ts", fields := [("a", FieldValue.str "b")],
       title := "T", source := some "fetch" } : Submission).source = some "fetch" :=
  C8_amended_source_selection "T" "ts"
    ⟨"https://api.example.com/data", some "POST",
      some (RequestBody.urlencoded [("a", "b")])⟩
    { url := "https://api.example.com/data", action := "https://api.example.com/data",
      timestamp := "ts", fields := [("a", FieldValue.str "b")],
      title := "T", source := some "fetch" } rfl

/-- C9: from the initial state, any sequence of attachListeners runs
leaves at most one listener pair on every control; moreover a control
already in the watched registry is never re-instrumented by a further
run, and the registry never drops it. -/
theorem C9_watcher_attaches_at_most_once :
    (∀ (runs : List (List Nat)) (b : Nat),
      (runWatcher initWatchState runs).attached.count b ≤ 1) ∧
    (∀ (s : WatchState) (buttons : List Nat) (b : Nat), b ∈ s.watched →
      (attachListeners s buttons).attached.count b = s.attached.count b ∧
        b ∈ (attachListeners s buttons).watched) := by
  constructor
  · intro runs b
    exact (watchInv_runWatcher initWatchState runs watchInv_init b).1
  · exact fun s buttons b h => watched_stable s buttons b h

/-- C9 witness: the dedup theorem instantiated at a state where control
five is already watched and a run rediscovers it. -/
theorem C9_watcher_attaches_at_most_once_witness :
    (attachListeners ⟨[5], [5]⟩ [5, 7]).attached.count 5
        = (⟨[5], [5]⟩ : WatchState).attached.count 5 ∧
      5 ∈ (attachListeners ⟨[5], [5]⟩ [5, 7]).watched :=
  C9_watcher_attaches_at_most_once.2 ⟨[5], [5]⟩ [5, 7] 5 (by decide)

/-- C10: every dispatch site guards on a nonempty field mapping, so a
submission returned by any builder (native submit, the three provider
DOM captures, the wrapped fetch, the wrapped XHR send) has nonempty
fields. -/
theorem C10_dispatch_requires_nonempty_fields :
    (∀ (pageUrl formAction title now : String) (es : List FormElement) (s : Submission),
      captureFormSubmission pageUrl formAction title now es = some s → s.fields ≠ []) ∧
    (∀ (hostname pathname href title now : String) (extracts : Nat → FieldMap)
       (salvage : List SalvageInput) (s : Submission),
      captureGoogleFormSubmission hostname pathname href title now extracts salvage
        = some s → s.fields ≠ []) ∧
    (∀ (hostname href title now : String) (fd : FieldMap) (s : Submission),
      captureMicrosoftFormSubmission hostname href title now fd = some s →
        s.fields ≠ []) ∧
    (∀ (hostname href title now : String) (extracts : Nat → FieldMap)
       (salvage : List SalvageInput) (s : Submission),
      captureClickUpFormSubmission hostname href title now extracts salvage = some s →
        s.fields ≠ []) ∧
    (∀ (title now : String) (req : FetchRequest) (s : Submission),
      interceptFetchSubmission title now req = some s → s.fields ≠ []) ∧
    (∀ (href title now : String) (st : XhrState) (data : Option RequestBody)
       (s : Submission),
      interceptXHRSubmission href title now st data = some s → s.fields ≠ []) := by
  refine ⟨?_, ?_, ?_, ?_, ?_, ?_⟩
  · intro pageUrl formAction title now es s h
    unfold captureFormSubmission at h
    by_cases h1 : shouldIgnore pageUrl (if formAction = "" then pageUrl else formAction) = true
    · rw [if_pos h1] at h; cases h
    · rw [if_neg h1] at h
      dsimp only at h
      by_cases h2 : (extractFormData es).isEmpty = true
      · rw [if_pos h2] at h; cases h
      · rw [if_neg h2] at h
        injection h with h3
        rw [← h3]
        exact List.isEmpty_eq_false.mp (by simpa using h2)
  · intro hostname pathname href title now extracts salvage s h
    unfold captureGoogleFormSubmission at h
    by_cases hg : isGoogleForm hostname pathname = true
    · rw [if_pos hg] at h
      cases hac : attemptCapture extracts salvage 1 with
      | none => rw [hac] at h; cases h
      | some fd =>
        rw [hac] at h
        injection h with h2
        rw [← h2]
        exact attemptCapture_some_nonempty extracts salvage 1 fd hac
    · rw [if_neg hg] at h; cases h
  · intro hostname href title now fd s h
    unfold captureMicrosoftFormSubmission at h
    by_cases hm : isMicrosoftForm hostname = true
    · rw [if_pos hm] at h
      by_cases he : fd.isEmpty = true
      · rw [if_pos he] at h; cases h
      · rw [if_neg he] at h
        injection h with h2
        rw [← h2]
        exact List.isEmpty_eq_false.mp (by simpa using he)
    · rw [if_neg hm] at h; cases h
  · intro hostname href title now extracts salvage s h
    unfold captureClickUpFormSubmission at h
    by_cases hc : isClickUpForm hostname = true
    · rw [if_pos hc] at h
      cases hac : attemptCapture extracts salvage 1 with
      | none => rw [hac] at h; cases h
      | some fd =>
        rw [hac] at h
        injection h with h2
        rw [← h2]
        exact attemptCapture_some_nonempty extracts salvage 1 fd hac
    · rw [if_neg hc] at h; cases h
  · intro title now req s h
    unfold interceptFetchSubmission at h
    by_cases hg : fetchIntercepts req = true
    · rw [if_pos hg] at h
      cases hb : req.body with
      | none => rw [hb] at h; cases h
      | some body =>
        rw [hb] at h
        dsimp only at h
        by_cases he : (fetchBodyFields (isGoogleFormsEndpoint req.url) body).isEmpty = true
        · rw [if_pos he] at h; cases h
        · rw [if_neg he] at h
          injection h with h2
          rw [← h2]
          exact List.isEmpty_eq_false.mp (by simpa using he)
    · rw [if_neg hg] at h; cases h
  · intro href title now st data s h
    unfold interceptXHRSubmission at h
    by_cases hx : xhrIntercepts st = true
    · rw [if_pos hx] at h
      cases hu : st.url with
      | none =>
        rw [hu] at h
        cases data with
        | none => exact Option.noConfusion h
        | some body => exact Option.noConfusion h
      | some urlStr =>
        rw [hu] at h
        cases data with
        | none => exact Option.noConfusion h
        | some body =>
          dsimp only at h
          by_cases hgmc : (isGoogleFormsEndpoint urlStr = true ∨
              isMicrosoftFormsEndpoint urlStr = true ∨ isClickUpFormsEndpoint urlStr = true)
          · rw [if_pos hgmc] at h
            by_cases he : (xhrBodyFields body).isEmpty = true
            · rw [if_pos he] at h; cases h
            · rw [if_neg he] at h
              injection h with h2
              rw [← h2]
              exact List.isEmpty_eq_false.mp (by simpa using he)
          · rw [if_neg hgmc] at h; cases h
    · rw [if_neg hx] at h; cases h

/-- C10 witness: the nonempty-fields theorem instantiated at a concrete
native submission. -/
theorem C10_dispatch_requires_nonempty_fields_witness :
    ({ url := "https://example.com/contact", action := "https://example.com/contact",
       timestamp := "ts", fields := [("email", FieldValue.str "a@b.com")],
       title := "T", source := none } : Submission).fields ≠ [] :=
  C10_dispatch_requires_nonempty_fields.1 "https://example.com/contact" "" "T" "ts"
    [⟨"email", "email", "INPUT", false, false, "a@b.com", 0⟩]
    { url := "https://example.com/contact", action := "https://example.com/contact",
      timestamp := "ts", fields := [("email", FieldValue.str "a@b.com")],
      title := "T", source := none } rfl

end FormTrack
